import Mathlib

/-!
Shallow embedding of `schpf/scHPF_.py` (hierarchical Poisson factorization
via coordinate-ascent variational inference), together with theorems that
settle the frozen claims C1..C10 about the specification.

Modelling conventions:
* numpy float64 values are modelled as exact rationals `ℚ`;
* 1-D parameter arrays become `List ℚ`, 2-D arrays `List (List ℚ)`;
* `coo_matrix` becomes the `Coo` structure of parallel triplet lists;
* python exceptions (`ValueError`) become `Except String`;
* the numeric kernels imported from `schpf.hpf_numba` (not part of the
  source under verification: `compute_Xphi_data`,
  `compute_loading_shape_update`, `compute_loading_rate_update`,
  `compute_pois_llh`) and the pseudorandom draws (`np.random.uniform`,
  `np.random.dirichlet`) are opaque collaborators; they are passed in as a
  `Kernels` record of total functions, so every theorem quantifies over
  them.  None of the claims below depends on their numeric content.
* python negative indexing `l[-k]` becomes `negGet l k`.
-/

/-- One variational Gamma block with 1-D shape/rate arrays
(`HPF_Gamma` instances such as `xi` and `eta`). -/
structure Gam1 where
  viShape : List ℚ
  viRate : List ℚ
deriving DecidableEq, Inhabited, Repr

/-- One variational Gamma block with 2-D shape/rate arrays
(`HPF_Gamma` instances such as `theta` and `beta`). -/
structure Gam2 where
  viShape : List (List ℚ)
  viRate : List (List ℚ)
deriving DecidableEq, Inhabited, Repr

/-- A sparse matrix in coordinate (triplet) form, mirroring
`scipy.sparse.coo_matrix`: parallel lists `data`, `row`, `col` over an
`nrows × ncols` domain. -/
structure Coo where
  nrows : Nat
  ncols : Nat
  data : List ℚ
  row : List Nat
  col : List Nat
deriving DecidableEq, Inhabited, Repr

/-- The scHPF estimator state: the constructor arguments stored by
`scHPF.__init__` plus the four posterior blocks and the loss history. -/
structure SCHPF where
  nfactors : Nat
  a : ℚ
  ap : ℚ
  bp : Option ℚ
  c : ℚ
  cp : ℚ
  dp : Option ℚ
  min_iter : Nat
  max_iter : Nat
  check_freq : Nat
  epsilon : ℚ
  better_than_n_ago : Nat
  xi : Option Gam1
  eta : Option Gam1
  theta : Option Gam2
  beta : Option Gam2
  loss : List ℚ
deriving DecidableEq, Inhabited, Repr

/-- The external numeric collaborators of `scHPF._fit` / `scHPF._setup`:
the `schpf.hpf_numba` kernels and the numpy random draws.  Argument lists
mirror the python call sites. -/
structure Kernels where
  /-- models `HPF_Gamma.random_gamma_factory` for a 1-D block:
  arguments are the dimension, shape prior and rate prior. -/
  randGamma1 : Nat → ℚ → ℚ → Gam1
  /-- models `HPF_Gamma.random_gamma_factory` for a 2-D block:
  arguments are the two dimensions, shape prior and rate prior. -/
  randGamma2 : Nat → Nat → ℚ → ℚ → Gam2
  /-- models `np.random.dirichlet(0.25*np.ones(nfactors), nnz)`:
  arguments are `nfactors` and the number of nonzero entries. -/
  dirichletPhi : Nat → Nat → List (List ℚ)
  /-- models `compute_Xphi_data(X.data, X.row, X.col, theta.vi_shape,
  theta.vi_rate, beta.vi_shape, beta.vi_rate)`. -/
  computeXphi : List ℚ → List Nat → List Nat → List (List ℚ) → List (List ℚ) →
    List (List ℚ) → List (List ℚ) → List (List ℚ)
  /-- models `compute_loading_shape_update(Xphi_data, idx, nitems, prior)`. -/
  loadingShapeUpdate : List (List ℚ) → List Nat → Nat → ℚ → List (List ℚ)
  /-- models `compute_loading_rate_update(cap_shape, cap_rate,
  other_shape, other_rate)`. -/
  loadingRateUpdate : List ℚ → List ℚ → List (List ℚ) → List (List ℚ) →
    List (List ℚ)
  /-- models `scHPF.pois_llh(vX, theta, beta)` as used by the training
  loop (the numba path `compute_pois_llh` summed over entries). -/
  poisLlh : Coo → Gam2 → Gam2 → ℚ

/-- Elementwise expectation `shape/rate` of a 1-D block
(the `HPF_Gamma.e_x` property). -/
def e_x1 (g : Gam1) : List ℚ := List.zipWith (· / ·) g.viShape g.viRate

/-- Elementwise expectation `shape/rate` of a 2-D block
(the `HPF_Gamma.e_x` property). -/
def e_x2 (g : Gam2) : List (List ℚ) :=
  List.zipWith (List.zipWith (· / ·)) g.viShape g.viRate

/-- Python negative indexing `l[-k]` (defaulting to 0 out of range). -/
def negGet (l : List ℚ) (k : Nat) : ℚ := l.getD (l.length - k) 0

/-- The boolean `converged` computed at a convergence check in
`scHPF._fit` (lines 401-406): both of the two most recent percent
changes (`pct_change[-1]`, `pct_change[-2]`) are small in magnitude, and
the loss sequence is not at a local inflection. -/
def convergedCheck (eps : ℚ) (loss pct : List ℚ) : Bool :=
  decide (|negGet pct 1| < eps) && decide (|negGet pct 2| < eps) &&
    !(decide (|negGet loss 3| < |negGet loss 2|) &&
      decide (|negGet loss 2| > |negGet loss 1|))

/-- Outcome of the stopping checks performed at a convergence check. -/
inductive StopSignal where
  | converged
  | gettingWorse
  | keepGoing
deriving DecidableEq, Inhabited, Repr

/-- The stopping logic evaluated at each convergence check of
`scHPF._fit` (lines 398-420): gated by `len(self.loss) > 3 and
t >= min_iter`; inside the gate first the convergence test, then the
degradation ("getting worse") early stop gated by
`len(self.loss) > self.better_than_n_ago and self.better_than_n_ago`. -/
def checkStop (eps : ℚ) (btna minIter t : Nat) (loss pct : List ℚ) : StopSignal :=
  if loss.length > 3 ∧ t ≥ minIter then
    if convergedCheck eps loss pct then .converged
    else if loss.length > btna ∧ btna ≠ 0 ∧
        |negGet loss btna| < |negGet loss 1| ∧
        |negGet loss 2| < |negGet loss 1| then .gettingWorse
    else .keepGoing
  else .keepGoing

/-- Arithmetic mean of a list (`np.mean`), with the `ℚ` convention
`x / 0 = 0` for the empty list. -/
def meanQ (l : List ℚ) : ℚ := l.sum / l.length

/-- Population variance of a list (`np.var`). -/
def varQ (l : List ℚ) : ℚ := ((l.map (fun x => (x - meanQ l) ^ 2)).sum) / l.length

/-- The quantity `np.mean(axis_sum) / np.var(axis_sum)` computed by the
local helper `mean_var_ratio` inside `scHPF._setup`. -/
def meanVarQuot (l : List ℚ) : ℚ := meanQ l / varQ l

/-- `X.sum(axis=1)`: the per-row sums of a sparse triplet matrix,
one entry per row of the domain (absent rows sum to 0). -/
def rowSums (X : Coo) : List ℚ :=
  (List.range X.nrows).map fun i =>
    (((X.row.zip X.data).filter (fun p => p.1 == i)).map Prod.snd).sum

/-- `X.sum(axis=0)`: the per-column sums of a sparse triplet matrix. -/
def colSums (X : Coo) : List ℚ :=
  (List.range X.ncols).map fun j =>
    (((X.col.zip X.data).filter (fun p => p.1 == j)).map Prod.snd).sum

/-- The `ValueError` message raised by `scHPF._setup` when `dp` is `None`
and `freeze_genes` is true. -/
def dpFreezeMsg : String := "dp is None and cannot  dp when freeze_genes is True."

/-- The `ValueError` message raised by `scHPF._setup` when
`freeze_genes` is true but `eta` or `beta` is missing. -/
def geneFreezeMsg : String :=
  "To fit with frozen gene variational distributions (freeze_genes==True), eta and beta must be set to valid HPF_Gamma instances."

/-- Resolution of the rate hyperparameter `dp` inside `scHPF._setup`
(lines 445-454): a caller-supplied `dp` is kept as is; otherwise, when
genes are frozen, a `ValueError` is raised; otherwise `dp` is estimated
as `cp * mean_var_ratio(X, axis=0)` and, when `clip` holds and
`bp > 1000 * dp`, clipped up to `bp / 1000`.  The boolean in the result
records whether the clip message was printed (the observable event). -/
def resolveDp (m : SCHPF) (freeze clip : Bool) (bp : ℚ) (X : Coo) :
    Except String (ℚ × Bool) :=
  match m.dp with
  | some d => .ok (d, false)
  | none =>
    if freeze then .error dpFreezeMsg
    else
      let dp0 := m.cp * meanVarQuot (colSums X)
      if clip ∧ bp > 1000 * dp0 then .ok (bp / 1000, true)
      else .ok (dp0, false)

/-- `scHPF._setup(X, freeze_genes, reinit, clip)`: resolve `bp` and `dp`
(empirically when absent), then build or reuse the four variational
blocks; with `freeze_genes` both gene blocks must already exist.
Returns `(bp, dp, xi, eta, theta, beta)` in the python order. -/
def setup (m : SCHPF) (K : Kernels) (X : Coo) (freeze reinit clip : Bool) :
    Except String (ℚ × ℚ × Gam1 × Gam1 × Gam2 × Gam2) :=
  let bp := match m.bp with
    | some b => b
    | none => m.ap * meanVarQuot (rowSums X)
  match resolveDp m freeze clip bp X with
  | .error e => .error e
  | .ok (dp, _ev) =>
    let xi := match m.xi with
      | some v => if reinit then K.randGamma1 X.nrows m.ap bp else v
      | none => K.randGamma1 X.nrows m.ap bp
    let theta := match m.theta with
      | some v => if reinit then K.randGamma2 X.nrows m.nfactors m.a bp else v
      | none => K.randGamma2 X.nrows m.nfactors m.a bp
    if freeze then
      match m.eta, m.beta with
      | some e, some b => .ok (bp, dp, xi, e, theta, b)
      | _, _ => .error geneFreezeMsg
    else
      let eta := match m.eta with
        | some v => if reinit then K.randGamma1 X.ncols m.cp dp else v
        | none => K.randGamma1 X.ncols m.cp dp
      let beta := match m.beta with
        | some v => if reinit then K.randGamma2 X.ncols m.nfactors m.c dp else v
        | none => K.randGamma2 X.ncols m.nfactors m.c dp
      .ok (bp, dp, xi, eta, theta, beta)

/-- The mutable local state of one `scHPF._fit` call: the four blocks,
`self.loss` (note: shared with the instance and NOT reset by `_fit`) and
the per-call `pct_change` list. -/
structure FitState where
  xi : Gam1
  eta : Gam1
  theta : Gam2
  beta : Gam2
  loss : List ℚ
  pct : List ℚ
deriving DecidableEq, Inhabited, Repr

/-- The loop-invariant context of one `scHPF._fit` call. -/
structure FitEnv where
  K : Kernels
  X : Coo
  vX : Coo
  nfactors : Nat
  ncells : Nat
  ngenes : Nat
  a : ℚ
  c : ℚ
  bp : ℚ
  dp : ℚ
  epsilon : ℚ
  check_freq : Nat
  btna : Nat

/-- One iteration's E/M updates in `scHPF._fit` (lines 351-373):
responsibility computation (`Xphi_data`), then the gene-side update
(skipped entirely when `freeze_genes`), then the cell-side update. -/
def blockUpdate (env : FitEnv) (freeze reinit : Bool) (t : Nat)
    (s : FitState) : FitState :=
  let Xphi :=
    if t == 0 && reinit then
      (env.X.data.zip (env.K.dirichletPhi env.nfactors env.X.data.length)).map
        (fun p => p.2.map (fun q => p.1 * q))
    else
      env.K.computeXphi env.X.data env.X.row env.X.col s.theta.viShape
        s.theta.viRate s.beta.viShape s.beta.viRate
  let eb : Gam1 × Gam2 :=
    if freeze then (s.eta, s.beta)
    else
      let betaShape := env.K.loadingShapeUpdate Xphi env.X.col env.ngenes env.c
      let betaRate := env.K.loadingRateUpdate s.eta.viShape s.eta.viRate
        s.theta.viShape s.theta.viRate
      let beta1 : Gam2 := ⟨betaShape, betaRate⟩
      (⟨s.eta.viShape, ((e_x2 beta1).map List.sum).map (fun q => env.dp + q)⟩,
        beta1)
  let thetaShape := env.K.loadingShapeUpdate Xphi env.X.row env.ncells env.a
  let thetaRate := env.K.loadingRateUpdate s.xi.viShape s.xi.viRate
    eb.2.viShape eb.2.viRate
  let theta1 : Gam2 := ⟨thetaShape, thetaRate⟩
  let xi1 : Gam1 :=
    ⟨s.xi.viShape, ((e_x2 theta1).map List.sum).map (fun q => env.bp + q)⟩
  { s with xi := xi1, eta := eb.1, theta := theta1, beta := eb.2 }

/-- One full iteration of the `scHPF._fit` loop body for iteration
index `t`: block updates, then (every `check_freq` iterations) the loss
recording, percent-change computation and stopping checks. -/
def fitStep (env : FitEnv) (freeze reinit : Bool) (minIter t : Nat)
    (s : FitState) : FitState × StopSignal :=
  let s1 := blockUpdate env freeze reinit t s
  if t % env.check_freq == 0 then
    let curr := -(env.K.poisLlh env.vX s1.theta s1.beta) /
      (env.vX.data.length : ℚ)
    let loss1 := s1.loss ++ [curr]
    let pc : ℚ :=
      match s1.loss.getLast? with
      | some prev => 100 * (curr - prev) / |prev|
      | none => 100
    let pct1 := s1.pct ++ [pc]
    ({ s1 with loss := loss1, pct := pct1 },
      checkStop env.epsilon env.btna minIter t loss1 pct1)
  else (s1, .keepGoing)

/-- The `for t in range(self.max_iter)` loop of `scHPF._fit`, with early
exit on either stop signal; `fuel` is the number of remaining
iterations. -/
def fitIter (env : FitEnv) (freeze reinit : Bool) (minIter : Nat) :
    Nat → Nat → FitState → FitState
  | _, 0, s => s
  | t, fuel + 1, s =>
    match fitStep env freeze reinit minIter t s with
    | (s1, .keepGoing) => fitIter env freeze reinit minIter (t + 1) fuel s1
    | (s1, _) => s1

/-- The tuple returned by `scHPF._fit`, together with the final value of
the (instance-shared) `self.loss` list. -/
structure FitResult where
  bp : ℚ
  dp : ℚ
  xi : Gam1
  eta : Gam1
  theta : Gam2
  beta : Gam2
  loss : List ℚ
deriving DecidableEq, Inhabited, Repr

/-- `scHPF._fit(X, validation_data, freeze_genes, reinit, min_iter)`:
setup, the first hierarchical-prior updates of `xi` (and `eta` when not
frozen), then the iteration loop.  `self.loss` enters the loop with its
current (possibly nonempty) contents, while `pct_change` starts empty. -/
def fit_ (m : SCHPF) (K : Kernels) (X : Coo) (vdata : Option Coo)
    (freeze reinit : Bool) (minIterArg : Option Nat) :
    Except String FitResult :=
  match setup m K X freeze reinit true with
  | .error e => .error e
  | .ok (bp, dp, xi0, eta0, theta0, beta0) =>
    let xi1 : Gam1 := ⟨xi0.viShape.map (fun _ => m.ap + (m.nfactors : ℚ) * m.a),
      ((e_x2 theta0).map List.sum).map (fun q => bp + q)⟩
    let eta1 : Gam1 :=
      if freeze then eta0
      else ⟨eta0.viShape.map (fun _ => m.cp + (m.nfactors : ℚ) * m.c),
        ((e_x2 beta0).map List.sum).map (fun q => dp + q)⟩
    let minIter := minIterArg.getD m.min_iter
    let env : FitEnv := ⟨K, X, vdata.getD X, m.nfactors, X.nrows, X.ncols,
      m.a, m.c, bp, dp, m.epsilon, m.check_freq, m.better_than_n_ago⟩
    let s0 : FitState := ⟨xi1, eta1, theta0, beta0, m.loss, []⟩
    let sF := fitIter env freeze reinit minIter 0 m.max_iter s0
    .ok ⟨bp, dp, sF.xi, sF.eta, sF.theta, sF.beta, sF.loss⟩

/-- `scHPF.fit(X, validation_data)`: run `_fit` with its defaults and
store the results on the instance. -/
def fit (m : SCHPF) (K : Kernels) (X : Coo) (vdata : Option Coo) :
    Except String SCHPF :=
  (fit_ m K X vdata false true none).map fun r =>
    { m with
      bp := some r.bp
      dp := some r.dp
      xi := some r.xi
      eta := some r.eta
      theta := some r.theta
      beta := some r.beta
      loss := r.loss }

/-- `scHPF.project(X, validation_data, min_iter)`: run `_fit` with
`freeze_genes=True` and return only `(bp, xi, theta)`.  Note that the
`min_iter` argument of `project` is NOT forwarded to `_fit`. -/
def project (m : SCHPF) (K : Kernels) (X : Coo) (vdata : Option Coo)
    (minIter : Nat) : Except String (ℚ × Gam1 × Gam2) :=
  (fit_ m K X vdata true true none).map fun r => (r.bp, r.xi, r.theta)

/-- `scHPF.__init__`: stores the scalar configuration, but sets the four
block fields to `None` and the loss history to `[]`, ignoring the
constructor's `xi`, `theta`, `eta`, `beta` and `loss` arguments. -/
def SCHPF.init (nfactors : Nat) (a ap : ℚ) (bp : Option ℚ) (c cp : ℚ)
    (dp : Option ℚ) (min_iter max_iter check_freq : Nat) (epsilon : ℚ)
    (better_than_n_ago : Nat) (xi : Option Gam1) (theta : Option Gam2)
    (eta : Option Gam1) (beta : Option Gam2) (loss : Option (List ℚ)) :
    SCHPF :=
  { nfactors := nfactors, a := a, ap := ap, bp := bp, c := c, cp := cp,
    dp := dp, min_iter := min_iter, max_iter := max_iter,
    check_freq := check_freq, epsilon := epsilon,
    better_than_n_ago := better_than_n_ago,
    xi := none, eta := none, theta := none, beta := none, loss := [] }

/-- A numpy-style array: its dimensions (`ndarray.shape`) and its
flattened contents. -/
structure NArr where
  dims : List Nat
  flat : List ℚ
deriving DecidableEq, Inhabited, Repr

/-- A validated variational Gamma block as produced by
`HPF_Gamma.__init__`. -/
structure HPFGamma where
  viShape : NArr
  viRate : NArr
deriving DecidableEq, Inhabited, Repr

/-- `HPF_Gamma.__init__(vi_shape, vi_rate)`: the three `assert`
statements (equal shapes, all shape entries positive, all rate entries
positive) guard construction; `none` models the `AssertionError`. -/
def HPFGamma.construct (s r : NArr) : Option HPFGamma :=
  if s.dims = r.dims ∧ (∀ x ∈ s.flat, 0 < x) ∧ (∀ x ∈ r.flat, 0 < x) then
    some ⟨s, r⟩
  else none

/-- The variational expectation `E[g_{r,k}] = shape[r,k] / rate[r,k]` of
one entry of a 2-D block, as used in the spec's formula for the Poisson
rate. -/
def eFactor (g : Gam2) (r k : Nat) : ℚ :=
  (g.viShape.getD r []).getD k 0 / (g.viRate.getD r []).getD k 0

/-- Well-formedness of a 2-D block over an `n × k` domain. -/
def Gam2.wf (g : Gam2) (n k : Nat) : Prop :=
  g.viShape.length = n ∧ g.viRate.length = n ∧
    (∀ rowv ∈ g.viShape, rowv.length = k) ∧
    (∀ rowv ∈ g.viRate, rowv.length = k)

/-- `scHPF.pois_llh_pointwise(X, theta, beta)` (numpy path, lines
248-249): per observed entry,
`X.data * log(e_rate) - e_rate - gammaln(X.data + 1)` with
`e_rate = (theta.e_x[X.row] * beta.e_x[X.col]).sum(axis=1)`.  The
transcendental library functions `np.log` and `scipy.special.gammaln`
are abstracted as the arguments `lg` and `lgam`. -/
def pois_llh_pointwise (lg lgam : ℚ → ℚ) (X : Coo) (theta beta : Gam2) :
    List ℚ :=
  (X.data.zip (X.row.zip X.col)).map fun p =>
    let rate := (List.zipWith (· * ·) ((e_x2 theta).getD p.2.1 [])
      ((e_x2 beta).getD p.2.2 [])).sum
    p.1 * lg rate - rate - lgam (p.1 + 1)

/-- `scHPF.pois_llh(X)`: the sum of the pointwise log-likelihoods. -/
def pois_llh (lg lgam : ℚ → ℚ) (X : Coo) (theta beta : Gam2) : ℚ :=
  (pois_llh_pointwise lg lgam X theta beta).sum

/-- Concrete deterministic kernels used to evaluate the model at
concrete inputs: every random draw and numba kernel returns fixed
values of the right dimensions, and the total log-likelihood of a
matrix with `n` entries is `-5 * n`. -/
def constKernels : Kernels where
  randGamma1 := fun n _ _ => ⟨List.replicate n 1, List.replicate n 1⟩
  randGamma2 := fun n k _ _ =>
    ⟨List.replicate n (List.replicate k 1), List.replicate n (List.replicate k 1)⟩
  dirichletPhi := fun k n => List.replicate n (List.replicate k 1)
  computeXphi := fun d _ _ _ _ _ _ => List.replicate d.length [1]
  loadingShapeUpdate := fun _ _ n p => List.replicate n [p]
  loadingRateUpdate := fun _ _ s2 _ => List.replicate s2.length [1]
  poisLlh := fun X _ _ => -5 * X.data.length

/-- A concrete 1 × 2 sparse matrix with a single entry of value 2 at
position (0, 1); its column sums are `[0, 2]` with mean 1 and variance
1. -/
def X0 : Coo := ⟨1, 2, [2], [0], [1]⟩

/-- A freshly constructed model with both rate hyperparameters supplied,
one factor, `max_iter = 1` and `check_freq = 1`. -/
def M0f : SCHPF :=
  { nfactors := 1, a := 3/10, ap := 1, bp := some 1, c := 3/10, cp := 1,
    dp := some 1, min_iter := 30, max_iter := 1, check_freq := 1,
    epsilon := 1/1000, better_than_n_ago := 5,
    xi := none, eta := none, theta := none, beta := none, loss := [] }

/-- A model carrying a loss history left over from an earlier fit. -/
def M1 : SCHPF := { M0f with loss := [42] }

/-- The `_fit` outcome on `M1`. -/
def R1 : FitResult :=
  (fit_ M1 constKernels X0 none false true none).toOption.getD default

/-- A model with fitted gene blocks (and `dp` supplied), eligible for
projection with frozen genes. -/
def M2 : SCHPF :=
  { M0f with
    eta := some ⟨[7, 8], [9, 10]⟩
    beta := some ⟨[[11], [12]], [[13], [14]]⟩ }

/-- The frozen-genes `_fit` outcome on `M2`. -/
def R2 : FitResult :=
  (fit_ M2 constKernels X0 none true true none).toOption.getD default

/-- A model whose `dp` hyperparameter is absent (to be estimated). -/
def M5 : SCHPF := { M0f with dp := none }

/-- The outcome of fitting the fresh model `M0f` once. -/
def M0fit : Except String SCHPF := fit M0f constKernels X0 none

/-- The outcome of fitting `M0f` and then refitting the resulting model
on the same data. -/
def M0refit : Except String SCHPF :=
  M0fit.bind (fun m1 => fit m1 constKernels X0 none)

/-- A tiny fitted cell-loading block over 1 row and 1 factor. -/
def T1 : Gam2 := ⟨[[2]], [[4]]⟩

/-- A tiny fitted gene-loading block over 2 rows and 1 factor. -/
def B1 : Gam2 := ⟨[[3], [5]], [[6], [10]]⟩

/-- A concrete stand-in for `np.log` on exact inputs. -/
def lgC : ℚ → ℚ := fun q => q + 100

/-- A concrete stand-in for `scipy.special.gammaln` on exact inputs. -/
def lgamC : ℚ → ℚ := fun q => q + 200

theorem convergedCheck_true_iff (eps : ℚ) (loss pct : List ℚ) :
    convergedCheck eps loss pct = true ↔
      (|negGet pct 1| < eps ∧ |negGet pct 2| < eps ∧
        ¬(|negGet loss 3| < |negGet loss 2| ∧ |negGet loss 2| > |negGet loss 1|)) := by
  unfold convergedCheck
  constructor
  · intro h
    simp only [Bool.and_eq_true, decide_eq_true_eq, Bool.not_eq_true',
      Bool.and_eq_false_iff, decide_eq_false_iff_not] at h
    obtain ⟨⟨h1, h2⟩, h3⟩ := h
    refine ⟨h1, h2, ?_⟩
    rintro ⟨ha, hb⟩
    rcases h3 with h | h
    · exact h ha
    · exact h hb
  · rintro ⟨h1, h2, h3⟩
    simp only [Bool.and_eq_true, decide_eq_true_eq, Bool.not_eq_true',
      Bool.and_eq_false_iff, decide_eq_false_iff_not]
    refine ⟨⟨h1, h2⟩, ?_⟩
    by_cases hA : |negGet loss 3| < |negGet loss 2|
    · right; intro hB; exact h3 ⟨hA, hB⟩
    · left; exact hA

theorem checkStop_eq_converged (eps : ℚ) (btna minIter t : Nat)
    (loss pct : List ℚ) :
    checkStop eps btna minIter t loss pct = .converged ↔
      ((loss.length > 3 ∧ t ≥ minIter) ∧ convergedCheck eps loss pct = true) := by
  unfold checkStop
  by_cases hg : loss.length > 3 ∧ t ≥ minIter
  · rw [if_pos hg]
    by_cases hc : convergedCheck eps loss pct = true
    · rw [if_pos hc]; simp [hg, hc]
    · rw [if_neg hc]
      by_cases hw : loss.length > btna ∧ btna ≠ 0 ∧
          |negGet loss btna| < |negGet loss 1| ∧
          |negGet loss 2| < |negGet loss 1|
      · rw [if_pos hw]; simp [hc]
      · rw [if_neg hw]; simp [hc]
  · rw [if_neg hg]
    simp [hg]

theorem checkStop_eq_gettingWorse (eps : ℚ) (btna minIter t : Nat)
    (loss pct : List ℚ) :
    checkStop eps btna minIter t loss pct = .gettingWorse ↔
      ((loss.length > 3 ∧ t ≥ minIter) ∧ convergedCheck eps loss pct = false ∧
        (loss.length > btna ∧ btna ≠ 0 ∧
          |negGet loss btna| < |negGet loss 1| ∧
          |negGet loss 2| < |negGet loss 1|)) := by
  unfold checkStop
  by_cases hg : loss.length > 3 ∧ t ≥ minIter
  · rw [if_pos hg]
    by_cases hc : convergedCheck eps loss pct = true
    · rw [if_pos hc]; simp [hg, hc]
    · rw [if_neg hc]
      rw [Bool.not_eq_true] at hc
      by_cases hw : loss.length > btna ∧ btna ≠ 0 ∧
          |negGet loss btna| < |negGet loss 1| ∧
          |negGet loss 2| < |negGet loss 1|
      · rw [if_pos hw]; simp [hg, hc, hw]
      · rw [if_neg hw]; simp [hc, hw]
  · rw [if_neg hg]
    simp [hg]

/-- C1: at a convergence check, `scHPF._fit` declares convergence exactly
when at least 4 loss points exist, the iteration index is at or past the
minimum-iteration floor, both of the two most recent percent-change
magnitudes are below epsilon, and the loss sequence is not at a local
inflection (NOT(|loss[-3]| < |loss[-2]| AND |loss[-2]| > |loss[-1]|)). -/
theorem checkStop_converged_iff (eps : ℚ) (btna minIter t : Nat)
    (loss pct : List ℚ) :
    checkStop eps btna minIter t loss pct = .converged ↔
      (loss.length > 3 ∧ t ≥ minIter ∧
        |negGet pct 1| < eps ∧ |negGet pct 2| < eps ∧
        ¬(|negGet loss 3| < |negGet loss 2| ∧ |negGet loss 2| > |negGet loss 1|)) := by
  rw [checkStop_eq_converged, convergedCheck_true_iff]
  tauto

/-- C2 (counterexample): the degradation early stop is NOT evaluated
separately from the convergence test's gate.  Concretely, with a loss
history of 5 worsening points, window `better_than_n_ago = 3`, and
iteration `t = 4` below the minimum-iteration floor 100, all of the
claim's degradation conditions hold (more than 3 loss points, nonzero
window, current loss worse than 3 checks back and worse than the
previous one) yet no stop fires, because the check sits inside the
`len(loss) > 3 and t >= min_iter` gate. -/
theorem checkStop_worse_gated_by_minIter :
    (([(1:ℚ),2,3,4,5].length > 3) ∧ ((3:Nat) ≠ 0) ∧
      |negGet [(1:ℚ),2,3,4,5] 3| < |negGet [(1:ℚ),2,3,4,5] 1| ∧
      |negGet [(1:ℚ),2,3,4,5] 2| < |negGet [(1:ℚ),2,3,4,5] 1|) ∧
    checkStop (1/1000) 3 100 4 [1,2,3,4,5] [100,100,100,100,100] = .keepGoing := by
  constructor
  · exact ⟨by decide, by decide, by decide, by decide⟩
  · decide

/-- C2 (amended): at a convergence check, the degradation early stop
fires exactly when the convergence gate holds (more than 3 loss points
and `t ≥ min_iter`), convergence itself does not fire, more than
`better_than_n_ago` loss points exist, the window is nonzero, and the
current loss magnitude is worse than both the loss recorded
`better_than_n_ago` checks back and the immediately preceding loss. -/
theorem checkStop_gettingWorse_iff (eps : ℚ) (btna minIter t : Nat)
    (loss pct : List ℚ) :
    checkStop eps btna minIter t loss pct = .gettingWorse ↔
      (loss.length > 3 ∧ t ≥ minIter ∧
        convergedCheck eps loss pct = false ∧
        loss.length > btna ∧ btna ≠ 0 ∧
        |negGet loss btna| < |negGet loss 1| ∧
        |negGet loss 2| < |negGet loss 1|) := by
  rw [checkStop_eq_gettingWorse]
  tauto

theorem resolveDp_unfrozen_ok (m : SCHPF) (clip : Bool) (bp : ℚ) (X : Coo) :
    ∃ p, resolveDp m false clip bp X = .ok p := by
  unfold resolveDp
  cases m.dp with
  | some d => exact ⟨_, rfl⟩
  | none =>
    rw [if_neg Bool.false_ne_true]
    by_cases hc : clip = true ∧ bp > 1000 * (m.cp * meanVarQuot (colSums X))
    · exact ⟨_, by rw [if_pos hc]⟩
    · exact ⟨_, by rw [if_neg hc]⟩

theorem setup_unfrozen_ok (m : SCHPF) (K : Kernels) (X : Coo)
    (reinit clip : Bool) :
    ∃ v, setup m K X false reinit clip = .ok v := by
  unfold setup
  obtain ⟨⟨dp, ev⟩, hp⟩ := resolveDp_unfrozen_ok m clip
    (match m.bp with
      | some b => b
      | none => m.ap * meanVarQuot (rowSums X)) X
  simp only [hp]
  exact ⟨_, rfl⟩

theorem setup_frozen_ok_iff (m : SCHPF) (K : Kernels) (X : Coo)
    (reinit clip : Bool) :
    (∃ v, setup m K X true reinit clip = .ok v) ↔
      (m.dp ≠ none ∧ m.eta ≠ none ∧ m.beta ≠ none) := by
  unfold setup resolveDp
  cases hdp : m.dp with
  | none => simp
  | some d =>
    cases heta : m.eta with
    | none => simp
    | some e =>
      cases hbeta : m.beta with
      | none => simp
      | some b => simp

/-- C7 (counterexample): `_setup` can fail even when `dp` is supplied.
On a model whose `dp` is set but whose gene blocks are absent,
`_setup` with `freeze_genes=True` raises the frozen-gene configuration
error, refuting "fails exactly when d' is unavailable and the gene side
is frozen". -/
theorem setup_error_without_missing_dp :
    M0f.dp = some 1 ∧
    setup M0f constKernels X0 true true true = .error geneFreezeMsg :=
  ⟨rfl, rfl⟩

/-- C7 (amended): `_setup` succeeds iff the gene side is not frozen, or
all of `dp`, `eta` and `beta` are present; in particular with frozen
genes it fails when `dp` is `None`, and with unfrozen genes a missing
`dp` is estimated from data and no error is raised. -/
theorem setup_ok_iff (m : SCHPF) (K : Kernels) (X : Coo)
    (freeze reinit clip : Bool) :
    (∃ v, setup m K X freeze reinit clip = .ok v) ↔
      (freeze = false ∨ (m.dp ≠ none ∧ m.eta ≠ none ∧ m.beta ≠ none)) := by
  cases freeze with
  | false => simp [setup_unfrozen_ok m K X reinit clip]
  | true => simp [setup_frozen_ok_iff m K X reinit clip]

/-- C4 (counterexample): a caller-supplied `dp` is never clipped, even
when both hyperparameters are available and `bp` exceeds `1000 * dp`:
with `dp = 1` stored and `bp = 2000`, the resolved `dp` stays `1` and no
clip event is surfaced. -/
theorem supplied_dp_never_clipped :
    M0f.dp = some 1 ∧ (2000 : ℚ) > 1000 * 1 ∧
    resolveDp M0f false true 2000 X0 = .ok (1, false) :=
  ⟨rfl, by norm_num, rfl⟩

/-- C4 (amended): the clip applies only while `dp` is being estimated
(`dp` was `None`): the clip event fires iff `dp` was absent and `bp`
exceeds 1000 times the estimated value, in which case the resolved `dp`
is exactly `bp / 1000`; otherwise `dp` is the stored value or the
unclipped estimate. -/
theorem resolveDp_clip_characterization (m : SCHPF) (freeze : Bool)
    (bp : ℚ) (X : Coo) (d : ℚ) (ev : Bool)
    (h : resolveDp m freeze true bp X = .ok (d, ev)) :
    (ev = true ↔ (m.dp = none ∧ bp > 1000 * (m.cp * meanVarQuot (colSums X)))) ∧
    (ev = true → d = bp / 1000) ∧
    (ev = false → (m.dp = some d ∨ d = m.cp * meanVarQuot (colSums X))) := by
  unfold resolveDp at h
  cases hdp : m.dp with
  | some d0 =>
    rw [hdp] at h
    simp only [Except.ok.injEq, Prod.mk.injEq] at h
    obtain ⟨hd, hev⟩ := h
    subst hd
    subst hev
    simp [hdp]
  | none =>
    rw [hdp] at h
    cases freeze with
    | true => rw [if_pos rfl] at h; cases h
    | false =>
      rw [if_neg Bool.false_ne_true] at h
      by_cases hc : (true : Bool) = true ∧ bp > 1000 * (m.cp * meanVarQuot (colSums X))
      · rw [if_pos hc] at h
        simp only [Except.ok.injEq, Prod.mk.injEq] at h
        obtain ⟨hd, hev⟩ := h
        subst hd
        subst hev
        simp [hc.2]
      · rw [if_neg hc] at h
        simp only [Except.ok.injEq, Prod.mk.injEq] at h
        obtain ⟨hd, hev⟩ := h
        subst hd
        subst hev
        have hc' : ¬ bp > 1000 * (m.cp * meanVarQuot (colSums X)) := fun hgt => hc ⟨rfl, hgt⟩
        simp [hc']

/-- C8: `HPF_Gamma.__init__` fails exactly when the dimensions mismatch
or some element of either array is nonpositive; every valid construction
succeeds, stores the given arrays, and every stored element is strictly
positive. -/
theorem construct_validation (s r : NArr) :
    (HPFGamma.construct s r = none ↔
      (s.dims ≠ r.dims ∨ (∃ x ∈ s.flat, x ≤ 0) ∨ (∃ x ∈ r.flat, x ≤ 0))) ∧
    (∀ g, HPFGamma.construct s r = some g →
      g.viShape = s ∧ g.viRate = r ∧
      (∀ x ∈ g.viShape.flat, 0 < x) ∧ (∀ x ∈ g.viRate.flat, 0 < x)) := by
  unfold HPFGamma.construct
  by_cases h : s.dims = r.dims ∧ (∀ x ∈ s.flat, 0 < x) ∧ (∀ x ∈ r.flat, 0 < x)
  · rw [if_pos h]
    constructor
    · constructor
      · intro hcontra; cases hcontra
      · rintro (hd | ⟨x, hx, hx0⟩ | ⟨x, hx, hx0⟩)
        · exact absurd h.1 hd
        · exact absurd (h.2.1 x hx) (not_lt.mpr hx0)
        · exact absurd (h.2.2 x hx) (not_lt.mpr hx0)
    · intro g hg
      cases hg
      exact ⟨rfl, rfl, h.2.1, h.2.2⟩
  · rw [if_neg h]
    refine ⟨⟨fun _ => ?_, fun _ => rfl⟩, fun g hg => by cases hg⟩
    by_cases hd : s.dims = r.dims
    · by_cases hs : ∀ x ∈ s.flat, 0 < x
      · have hr : ¬ ∀ x ∈ r.flat, 0 < x := fun hr => h ⟨hd, hs, hr⟩
        push_neg at hr
        obtain ⟨x, hx, hx0⟩ := hr
        exact Or.inr (Or.inr ⟨x, hx, hx0⟩)
      · push_neg at hs
        obtain ⟨x, hx, hx0⟩ := hs
        exact Or.inr (Or.inl ⟨x, hx, hx0⟩)
    · exact Or.inl hd

theorem setup_freeze_noGenes (m : SCHPF) (K : Kernels) (X : Coo)
    (re clip : Bool) (h : m.eta = none) (v : ℚ × ℚ × Gam1 × Gam1 × Gam2 × Gam2) :
    setup m K X true re clip ≠ .ok v := by
  unfold setup resolveDp
  cases hdp : m.dp with
  | none => simp
  | some d => cases m.beta <;> simp [h]

/-- C9: `scHPF.__init__` stores `None` for the xi, eta, theta and beta
fields and an empty loss history regardless of the values passed for the
constructor's `xi`, `theta`, `eta`, `beta` and `loss` parameters; hence a
frozen-gene fit cannot be prepared through constructor arguments alone,
as `_setup` with `freeze_genes=True` always fails on a freshly
constructed instance. -/
theorem init_discards_blocks (nfactors : Nat) (a ap : ℚ) (bp : Option ℚ)
    (c cp : ℚ) (dp : Option ℚ) (min_iter max_iter check_freq : Nat)
    (epsilon : ℚ) (btna : Nat) (xi : Option Gam1) (theta : Option Gam2)
    (eta : Option Gam1) (beta : Option Gam2) (loss : Option (List ℚ)) :
    (SCHPF.init nfactors a ap bp c cp dp min_iter max_iter check_freq
        epsilon btna xi theta eta beta loss).xi = none ∧
    (SCHPF.init nfactors a ap bp c cp dp min_iter max_iter check_freq
        epsilon btna xi theta eta beta loss).eta = none ∧
    (SCHPF.init nfactors a ap bp c cp dp min_iter max_iter check_freq
        epsilon btna xi theta eta beta loss).theta = none ∧
    (SCHPF.init nfactors a ap bp c cp dp min_iter max_iter check_freq
        epsilon btna xi theta eta beta loss).beta = none ∧
    (SCHPF.init nfactors a ap bp c cp dp min_iter max_iter check_freq
        epsilon btna xi theta eta beta loss).loss = [] ∧
    (∀ (K : Kernels) (X : Coo) (re clip : Bool) v,
      setup (SCHPF.init nfactors a ap bp c cp dp min_iter max_iter check_freq
        epsilon btna xi theta eta beta loss) K X true re clip ≠ .ok v) := by
  refine ⟨rfl, rfl, rfl, rfl, rfl, ?_⟩
  intro K X re clip v
  exact setup_freeze_noGenes _ K X re clip rfl v

/-- C10: the result of `scHPF.project` does not depend on its `min_iter`
argument, because `project` never forwards it to `_fit` (which therefore
falls back to the instance's configured `min_iter`). -/
theorem project_min_iter_irrelevant (m : SCHPF) (K : Kernels) (X : Coo)
    (vdata : Option Coo) (mi1 mi2 : Nat) :
    project m K X vdata mi1 = project m K X vdata mi2 := rfl

theorem blockUpdate_loss (env : FitEnv) (fr re : Bool) (t : Nat)
    (s : FitState) : (blockUpdate env fr re t s).loss = s.loss := rfl

theorem blockUpdate_pct (env : FitEnv) (fr re : Bool) (t : Nat)
    (s : FitState) : (blockUpdate env fr re t s).pct = s.pct := rfl

theorem fitStep_loss (env : FitEnv) (fr re : Bool) (mi t : Nat)
    (s : FitState) : ∃ tl, (fitStep env fr re mi t s).1.loss = s.loss ++ tl := by
  unfold fitStep
  by_cases h : (t % env.check_freq == 0) = true
  · rw [if_pos h]
    exact ⟨_, rfl⟩
  · rw [if_neg h]
    exact ⟨[], by simp [blockUpdate_loss]⟩

theorem fitIter_loss (env : FitEnv) (fr re : Bool) (mi : Nat) :
    ∀ (fuel t : Nat) (s : FitState),
      ∃ tl, (fitIter env fr re mi t fuel s).loss = s.loss ++ tl := by
  intro fuel
  induction fuel with
  | zero => intro t s; exact ⟨[], by simp [fitIter]⟩
  | succ n ih =>
    intro t s
    obtain ⟨tl1, h1⟩ := fitStep_loss env fr re mi t s
    cases hstep : fitStep env fr re mi t s with
    | mk s1 sig =>
      rw [hstep] at h1
      cases sig with
      | keepGoing =>
        obtain ⟨tl2, h2⟩ := ih (t + 1) s1
        have h1' : s1.loss = s.loss ++ tl1 := h1
        refine ⟨tl1 ++ tl2, ?_⟩
        rw [fitIter, hstep]
        simp only [h2, h1', List.append_assoc]
      | converged =>
        refine ⟨tl1, ?_⟩
        rw [fitIter, hstep]
        exact h1
      | gettingWorse =>
        refine ⟨tl1, ?_⟩
        rw [fitIter, hstep]
        exact h1

/-- C3 (amended): `_fit` does not reset the loss history: the loss list
after any `_fit` call is the instance's incoming loss history extended
by the values recorded during that call. -/
theorem fit_appends_loss_history (m : SCHPF) (K : Kernels) (X : Coo)
    (vdata : Option Coo) (fr re : Bool) (mi : Option Nat) (r : FitResult)
    (h : fit_ m K X vdata fr re mi = .ok r) :
    r.loss.take m.loss.length = m.loss := by
  unfold fit_ at h
  cases hs : setup m K X fr re true with
  | error e => rw [hs] at h; cases h
  | ok v =>
    rw [hs] at h
    obtain ⟨bp, dp, xi0, eta0, theta0, beta0⟩ := v
    simp only [] at h
    cases h
    obtain ⟨tl, htl⟩ := fitIter_loss
      ⟨K, X, vdata.getD X, m.nfactors, X.nrows, X.ncols, m.a, m.c, bp, dp,
        m.epsilon, m.check_freq, m.better_than_n_ago⟩ fr re
      (mi.getD m.min_iter) m.max_iter 0
      ⟨⟨xi0.viShape.map (fun _ => m.ap + (m.nfactors : ℚ) * m.a),
        ((e_x2 theta0).map List.sum).map (fun q => bp + q)⟩,
        (if fr then eta0
          else ⟨eta0.viShape.map (fun _ => m.cp + (m.nfactors : ℚ) * m.c),
            ((e_x2 beta0).map List.sum).map (fun q => dp + q)⟩),
        theta0, beta0, m.loss, []⟩
    simp only [htl]
    exact List.take_left m.loss tl

/-- Witness for C3 (amended): on the concrete model `M1`, whose loss
history holds the leftover value 42, the history after `_fit` still
starts with 42. -/
theorem fit_appends_loss_history_witness :
    R1.loss.take M1.loss.length = M1.loss :=
  fit_appends_loss_history M1 constKernels X0 none false true none R1 rfl

/-- C3 (counterexample): the loss history is NOT scoped to a single fit
call.  Fitting the fresh model `M0f` records the loss value 5; fitting
the resulting model again on the same data yields the history `[5, 5]`,
which still contains the value recorded by the first call, refuting
"contains only values appended during that call". -/
theorem refit_keeps_old_loss :
    M0fit.map SCHPF.loss = Except.ok [5] ∧
    M0refit.map SCHPF.loss = Except.ok [5, 5] := by
  norm_num [M0fit, M0refit, fit, fit_, setup, resolveDp, blockUpdate, fitStep,
    fitIter, checkStop, convergedCheck, negGet, e_x2, M0f, X0, constKernels,
    Except.bind, Except.map]

theorem blockUpdate_frozen (env : FitEnv) (re : Bool) (t : Nat)
    (s : FitState) :
    (blockUpdate env true re t s).eta = s.eta ∧
    (blockUpdate env true re t s).beta = s.beta := ⟨rfl, rfl⟩

theorem fitStep_frozen (env : FitEnv) (re : Bool) (mi t : Nat)
    (s : FitState) :
    (fitStep env true re mi t s).1.eta = s.eta ∧
    (fitStep env true re mi t s).1.beta = s.beta := by
  unfold fitStep
  by_cases h : (t % env.check_freq == 0) = true
  · rw [if_pos h]; exact ⟨rfl, rfl⟩
  · rw [if_neg h]; exact ⟨rfl, rfl⟩

theorem fitIter_frozen (env : FitEnv) (re : Bool) (mi : Nat) :
    ∀ (fuel t : Nat) (s : FitState),
      (fitIter env true re mi t fuel s).eta = s.eta ∧
      (fitIter env true re mi t fuel s).beta = s.beta := by
  intro fuel
  induction fuel with
  | zero => intro t s; exact ⟨rfl, rfl⟩
  | succ n ih =>
    intro t s
    have hstep := fitStep_frozen env re mi t s
    cases h : fitStep env true re mi t s with
    | mk s1 sig =>
      rw [h] at hstep
      have h1 : s1.eta = s.eta := hstep.1
      have h2 : s1.beta = s.beta := hstep.2
      cases sig with
      | keepGoing =>
        have hi := ih (t + 1) s1
        rw [fitIter, h]
        exact ⟨hi.1.trans h1, hi.2.trans h2⟩
      | converged =>
        rw [fitIter, h]
        exact ⟨h1, h2⟩
      | gettingWorse =>
        rw [fitIter, h]
        exact ⟨h1, h2⟩

theorem setup_frozen_genes (m : SCHPF) (K : Kernels) (X : Coo)
    (re clip : Bool) (bp dp : ℚ) (xi eta : Gam1) (theta beta : Gam2)
    (h : setup m K X true re clip = .ok (bp, dp, xi, eta, theta, beta)) :
    m.eta = some eta ∧ m.beta = some beta := by
  unfold setup resolveDp at h
  cases hdp : m.dp with
  | none => simp [hdp] at h
  | some d =>
    cases heta : m.eta with
    | none => cases hbeta : m.beta <;> simp [hdp, heta, hbeta] at h
    | some e =>
      cases hbeta : m.beta with
      | none => simp [hdp, heta, hbeta] at h
      | some b =>
        simp only [hdp, heta, hbeta] at h
        rw [if_pos trivial] at h
        simp only [Except.ok.injEq, Prod.mk.injEq] at h
        obtain ⟨_, _, _, he, _, hb⟩ := h
        exact ⟨by rw [he], by rw [hb]⟩

/-- C5: for every successful frozen-genes `_fit` (the internal call made
by `project`), the returned gene-capacity and gene-loading blocks are
exactly the blocks stored on the instance before the call (eta and beta
are never written when `freeze_genes` is true), and `project` returns
only the newly estimated `bp`, the cell-capacity block `xi` and the
cell-loading block `theta`. -/
theorem project_frozen_gene_blocks_unchanged (m : SCHPF) (K : Kernels)
    (X : Coo) (vdata : Option Coo) (mi : Nat) (r : FitResult)
    (h : fit_ m K X vdata true true none = .ok r) :
    project m K X vdata mi = .ok (r.bp, r.xi, r.theta) ∧
    m.eta = some r.eta ∧ m.beta = some r.beta := by
  constructor
  · unfold project
    rw [h]
    rfl
  · unfold fit_ at h
    cases hs : setup m K X true true true with
    | error e => rw [hs] at h; cases h
    | ok v =>
      rw [hs] at h
      obtain ⟨bp, dp, xi0, eta0, theta0, beta0⟩ := v
      have hgenes := setup_frozen_genes m K X true true bp dp xi0 eta0
        theta0 beta0 hs
      simp only [] at h
      cases h
      have hfro := fitIter_frozen
        ⟨K, X, vdata.getD X, m.nfactors, X.nrows, X.ncols, m.a, m.c, bp, dp,
          m.epsilon, m.check_freq, m.better_than_n_ago⟩ true
        ((none : Option Nat).getD m.min_iter) m.max_iter 0
        ⟨⟨xi0.viShape.map (fun _ => m.ap + (m.nfactors : ℚ) * m.a),
          ((e_x2 theta0).map List.sum).map (fun q => bp + q)⟩,
          (if true then eta0
            else ⟨eta0.viShape.map (fun _ => m.cp + (m.nfactors : ℚ) * m.c),
              ((e_x2 beta0).map List.sum).map (fun q => dp + q)⟩),
          theta0, beta0, m.loss, []⟩
      refine ⟨?_, ?_⟩
      · rw [show ((if true then eta0
            else ⟨eta0.viShape.map (fun _ => m.cp + (m.nfactors : ℚ) * m.c),
              ((e_x2 beta0).map List.sum).map (fun q => dp + q)⟩) : Gam1)
            = eta0 from rfl] at hfro
        exact hfro.1 ▸ hgenes.1
      · exact hfro.2 ▸ hgenes.2

/-- Witness for C5: on the concrete model `M2` with stored gene blocks,
the frozen-genes fit succeeds, `project` returns only `(bp, xi, theta)`,
and the returned gene blocks are bit-identical to the stored ones. -/
theorem project_frozen_gene_blocks_unchanged_witness :
    project M2 constKernels X0 none 10 = .ok (R2.bp, R2.xi, R2.theta) ∧
    M2.eta = some R2.eta ∧ M2.beta = some R2.beta :=
  project_frozen_gene_blocks_unchanged M2 constKernels X0 none 10 R2 rfl

theorem zipWith_mul_sum : ∀ (n : Nat) (l1 l2 : List ℚ),
    l1.length = n → l2.length = n →
    (List.zipWith (· * ·) l1 l2).sum =
      ∑ k in Finset.range n, l1.getD k 0 * l2.getD k 0 := by
  intro n
  induction n with
  | zero =>
    intro l1 l2 h1 h2
    rw [List.length_eq_zero] at h1 h2
    subst h1
    subst h2
    simp
  | succ n ih =>
    intro l1 l2 h1 h2
    cases l1 with
    | nil => simp at h1
    | cons a t1 =>
      cases l2 with
      | nil => simp at h2
      | cons b t2 =>
        simp only [List.zipWith_cons_cons, List.sum_cons]
        rw [ih t1 t2 (by simpa using h1) (by simpa using h2)]
        rw [Finset.sum_range_succ']
        simp only [List.getD_cons_succ, List.getD_cons_zero]
        rw [add_comm]

theorem zipWith_zipWith_getD (as : List (List ℚ)) :
    ∀ (bs : List (List ℚ)) (r : Nat),
    (List.zipWith (List.zipWith (· / ·)) as bs).getD r [] =
      List.zipWith (· / ·) (as.getD r []) (bs.getD r []) := by
  induction as with
  | nil => intro bs r; cases bs <;> simp [List.getD]
  | cons a ta ih =>
    intro bs r
    cases bs with
    | nil => simp [List.getD]
    | cons b tb =>
      cases r with
      | zero => simp
      | succ n => simpa using ih tb n

theorem zipWith_div_getD (l1 : List ℚ) :
    ∀ (l2 : List ℚ) (k : Nat),
    (List.zipWith (· / ·) l1 l2).getD k 0 = l1.getD k 0 / l2.getD k 0 := by
  induction l1 with
  | nil => intro l2 k; simp [List.getD]
  | cons a t ih =>
    intro l2 k
    cases l2 with
    | nil => simp [List.getD]
    | cons b tb =>
      cases k with
      | zero => simp
      | succ n => simpa using ih tb n

theorem e_x2_getD_getD (g : Gam2) (r k : Nat) :
    ((e_x2 g).getD r []).getD k 0 = eFactor g r k := by
  unfold e_x2 eFactor
  rw [zipWith_zipWith_getD, zipWith_div_getD]

theorem e_x2_row_length (g : Gam2) (n k r : Nat) (hw : g.wf n k)
    (hr : r < n) : ((e_x2 g).getD r []).length = k := by
  obtain ⟨h1, h2, h3, h4⟩ := hw
  unfold e_x2
  rw [zipWith_zipWith_getD, List.length_zipWith]
  have hs : (g.viShape.getD r []).length = k := by
    rw [List.getD_eq_getElem _ _ (by omega)]
    exact h3 _ (List.getElem_mem _)
  have ht : (g.viRate.getD r []).length = k := by
    rw [List.getD_eq_getElem _ _ (by omega)]
    exact h4 _ (List.getElem_mem _)
  omega

/-- C6: for every observed nonzero entry, the pointwise Poisson
log-likelihood computed by `scHPF.pois_llh_pointwise` equals
`value * log(rate) - rate - logGamma(value + 1)` where `rate` is the dot
product over the K factors of the cell-loading and gene-loading
variational expectations at that entry's row and column, and the
aggregate `pois_llh` is the sum of the pointwise values over all
observed entries. -/
theorem pois_llh_pointwise_formula (lg lgam : ℚ → ℚ) (X : Coo)
    (theta beta : Gam2) (K : Nat)
    (hrow : X.row.length = X.data.length)
    (hcol : X.col.length = X.data.length)
    (hth : theta.wf X.nrows K) (hbe : beta.wf X.ncols K)
    (hr : ∀ j ∈ X.row, j < X.nrows) (hc : ∀ j ∈ X.col, j < X.ncols)
    (i : Nat) (hi : i < X.data.length) :
    (pois_llh_pointwise lg lgam X theta beta).getD i 0 =
      X.data.getD i 0 * lg (∑ k in Finset.range K,
          eFactor theta (X.row.getD i 0) k * eFactor beta (X.col.getD i 0) k)
        - (∑ k in Finset.range K,
          eFactor theta (X.row.getD i 0) k * eFactor beta (X.col.getD i 0) k)
        - lgam (X.data.getD i 0 + 1) ∧
    pois_llh lg lgam X theta beta =
      (pois_llh_pointwise lg lgam X theta beta).sum := by
  refine ⟨?_, rfl⟩
  have hir : i < X.row.length := by omega
  have hic : i < X.col.length := by omega
  have hzl : (X.row.zip X.col).length = X.data.length := by
    rw [List.length_zip]
    omega
  have hz : (X.data.zip (X.row.zip X.col)).length = X.data.length := by
    rw [List.length_zip]
    omega
  have hiz : i < (X.data.zip (X.row.zip X.col)).length := by omega
  unfold pois_llh_pointwise
  rw [List.getD_eq_getElem _ _ (by rw [List.length_map]; omega)]
  rw [List.getElem_map]
  rw [List.getElem_zip]
  rw [List.getElem_zip]
  rw [List.getD_eq_getElem X.data 0 hi, List.getD_eq_getElem X.row 0 hir,
    List.getD_eq_getElem X.col 0 hic]
  have hltheta : ((e_x2 theta).getD (X.row[i]) []).length = K :=
    e_x2_row_length theta X.nrows K _ hth (hr _ (List.getElem_mem _))
  have hlbeta : ((e_x2 beta).getD (X.col[i]) []).length = K :=
    e_x2_row_length beta X.ncols K _ hbe (hc _ (List.getElem_mem _))
  have hsum : (List.zipWith (· * ·) ((e_x2 theta).getD (X.row[i]) [])
      ((e_x2 beta).getD (X.col[i]) [])).sum =
      ∑ k in Finset.range K,
        eFactor theta (X.row[i]) k * eFactor beta (X.col[i]) k := by
    rw [zipWith_mul_sum K _ _ hltheta hlbeta]
    exact Finset.sum_congr rfl fun k _ => by
      rw [e_x2_getD_getD, e_x2_getD_getD]
  simp only [hsum]

/-- Witness for C6: the formula instantiated at the concrete entry
(0, 1, 2) of `X0` with the concrete blocks `T1`, `B1` and the concrete
stand-ins for log and logGamma. -/
theorem pois_llh_pointwise_formula_witness :
    (pois_llh_pointwise lgC lgamC X0 T1 B1).getD 0 0 =
      X0.data.getD 0 0 * lgC (∑ k in Finset.range 1,
          eFactor T1 (X0.row.getD 0 0) k * eFactor B1 (X0.col.getD 0 0) k)
        - (∑ k in Finset.range 1,
          eFactor T1 (X0.row.getD 0 0) k * eFactor B1 (X0.col.getD 0 0) k)
        - lgamC (X0.data.getD 0 0 + 1) ∧
    pois_llh lgC lgamC X0 T1 B1 =
      (pois_llh_pointwise lgC lgamC X0 T1 B1).sum :=
  pois_llh_pointwise_formula lgC lgamC X0 T1 B1 1 rfl rfl
    (by constructor <;> simp [T1, X0, Gam2.wf])
    (by constructor <;> simp [B1, X0, Gam2.wf])
    (by decide) (by decide) 0 (by decide)

/-- Witness for C4 (amended): with `dp` absent, `cp = 1` and column sums
`[0, 2]` (estimate 1) and `bp = 2000`, the clip fires and the resolved
value is exactly `2000 / 1000 = 2`. -/
theorem resolveDp_clip_characterization_witness :
    resolveDp M5 false true 2000 X0 = .ok (2, true) ∧
    ((true = true ↔
        (M5.dp = none ∧ (2000 : ℚ) > 1000 * (M5.cp * meanVarQuot (colSums X0)))) ∧
      (true = true → (2 : ℚ) = 2000 / 1000) ∧
      (true = false → (M5.dp = some 2 ∨ (2 : ℚ) = M5.cp * meanVarQuot (colSums X0)))) :=
  by
  have hcs : colSums X0 = [0, 2] := by
    norm_num [colSums, X0, List.range_succ, List.filter_cons, List.filter_nil]
  have hmv : meanVarQuot (colSums X0) = 1 := by
    rw [hcs]
    norm_num [meanVarQuot, meanQ, varQ, List.sum_cons, List.sum_nil]
  have h : resolveDp M5 false true 2000 X0 = .ok (2, true) := by
    norm_num [resolveDp, M5, M0f, hmv]
  exact ⟨h, resolveDp_clip_characterization M5 false 2000 X0 2 true h⟩
